import Mathlib

/-!
Shallow embedding of `src/pdf_app.py` (PDF Cleaner Pro).

Images are modelled as total pixel functions over `Nat` coordinates together
with explicit width/height; 8-bit pixel samples are `Nat` values (a valid
image keeps them ≤ 255, and every operation of the app that writes pixels
clamps into that range exactly as OpenCV's `saturate_cast<uchar>` does).
Colour images carry a `(B, G, R)` triple per pixel, matching OpenCV's channel
order after the `[:, :, ::-1]` flip at line 128 of the source.

External library calls are modelled as follows:
  * `cv2.cvtColor`, `cv2.GaussianBlur`, `cv2.threshold`, `cv2.convertScaleAbs`
    and `cv2.filter2D` are given concrete definitions reproducing OpenCV's
    documented fixed-point arithmetic (BGR→GRAY coefficients descaled by
    `>> 14`, the fixed `[1,4,6,4,1]/16` and `[1,2,1]/4` small Gaussian
    kernels with `BORDER_REFLECT_101`, strict `src > thresh` comparison, and
    saturating casts).
  * `deskew.determine_skew` and the interpolation core of `cv2.warpAffine`
    are not code of this repository; the pipeline definitions are
    parametrized over them, keeping only what the call sites fix (the
    branch structure and the output size `(w, h)`).
  * `pdf2image.convert_from_bytes`, `PIL` JPEG encoding and `img2pdf.convert`
    are likewise parameters (`decoded`, `jpegEncode`, `img2pdfConvert`).
-/

namespace PdfApp

/-- A three-channel page raster: width, height and a total pixel function
returning a `(B, G, R)` triple (channel order as used by the OpenCV part of
the source). -/
structure Img where
  width : Nat
  height : Nat
  pix : Nat → Nat → Nat × Nat × Nat

/-- A single-channel (grayscale) raster. -/
structure GImg where
  width : Nat
  height : Nat
  pix : Nat → Nat → Nat

/-- A constant-colour raster, used for concrete test inputs. -/
def constImg (w h : Nat) (c : Nat × Nat × Nat) : Img :=
  ⟨w, h, fun _ _ => c⟩

/-- OpenCV `BORDER_REFLECT_101` coordinate folding (`... 2 1 | 0 1 2 | 1 0`):
period `2*(n-1)`, reflecting without repeating the edge sample. For a
degenerate one-column image the only valid coordinate is 0. -/
def reflect101 (n : Nat) (p : Int) : Nat :=
  if n ≤ 1 then 0
  else
    let m : Int := 2 * ((n : Int) - 1)
    let q : Int := p % m
    let q : Int := if q < 0 then q + m else q
    if q < (n : Int) then q.toNat else (m - q).toNat

/-- `cv2.cvtColor(..., cv2.COLOR_BGR2GRAY)` on 8-bit data:
`Y = (R*4899 + G*9617 + B*1868 + 2^13) >> 14` (OpenCV's fixed-point
descaled BT.601 weights 0.299/0.587/0.114). -/
def bgr2gray (img : Img) : GImg where
  width := img.width
  height := img.height
  pix := fun x y =>
    let p := img.pix x y
    (p.2.2 * 4899 + p.2.1 * 9617 + p.1 * 1868 + 8192) / 16384

/-- The fixed 5-tap small Gaussian kernel OpenCV uses for
`GaussianBlur(ksize=(5,5), sigma=0)`: `[1,4,6,4,1]/16`. -/
def gk5 : List Nat := [1, 4, 6, 4, 1]

/-- `cv2.GaussianBlur(gray, (5, 5), 0)` on a single-channel 8-bit image:
separable `[1,4,6,4,1]/16` kernel in each direction (total weight 256),
`BORDER_REFLECT_101`, round-to-nearest on the accumulated sum. -/
def gaussianBlur5 (g : GImg) : GImg where
  width := g.width
  height := g.height
  pix := fun x y =>
    (((List.range 5).foldl (fun acc j =>
        acc + gk5.getD j 0 *
          ((List.range 5).foldl (fun acc2 i =>
            acc2 + gk5.getD i 0 *
              g.pix (reflect101 g.width ((x : Int) + (i : Int) - 2))
                    (reflect101 g.height ((y : Int) + (j : Int) - 2))) 0)) 0)
      + 128) / 256

/-- The fixed 3-tap small Gaussian kernel OpenCV uses for
`GaussianBlur(ksize=(3,3), sigma=0)`: `[1,2,1]/4`. -/
def gk3 : List Nat := [1, 2, 1]

/-- `cv2.GaussianBlur(image_cv, (3, 3), 0)` on a three-channel 8-bit image:
per-channel separable `[1,2,1]/4` kernel (total weight 16),
`BORDER_REFLECT_101`, round-to-nearest. -/
def gaussianBlur3 (img : Img) : Img where
  width := img.width
  height := img.height
  pix := fun x y =>
    let f : ((Nat × Nat × Nat) → Nat) → Nat := fun ch =>
      (((List.range 3).foldl (fun acc j =>
          acc + gk3.getD j 0 *
            ((List.range 3).foldl (fun acc2 i =>
              acc2 + gk3.getD i 0 *
                ch (img.pix (reflect101 img.width ((x : Int) + (i : Int) - 1))
                            (reflect101 img.height ((y : Int) + (j : Int) - 1)))) 0)) 0)
        + 8) / 16
    (f (fun p => p.1), f (fun p => p.2.1), f (fun p => p.2.2))

/-- `cv2.threshold(src, thresh, 255, cv2.THRESH_BINARY)` per pixel:
`255` when `src > thresh`, else `0` (OpenCV uses a strict comparison). -/
def thresholdBinary (g : GImg) (thresh : Nat) : GImg where
  width := g.width
  height := g.height
  pix := fun x y => if thresh < g.pix x y then 255 else 0

/-- `remove_handwriting_logic(image_cv, threshold_val)` (source lines 14–33):
grayscale conversion, 5×5 Gaussian blur, then a global binary threshold. -/
def remove_handwriting_logic (image_cv : Img) (threshold_val : Nat) : GImg :=
  let gray := bgr2gray image_cv
  let blurred := gaussianBlur5 gray
  thresholdBinary blurred threshold_val

/-- `cv2.convertScaleAbs(p, alpha=1.4, beta=-30)` on one 8-bit sample:
`saturate_cast<uchar>(round(|1.4*p - 30|))`. `1.4*p - 30 = (7p-150)/5` has
fractional part in `{0, .2, .4, .6, .8}`, so round-half-to-even coincides
with `floor(x + 1/2)` and the exact rational model below is faithful to the
floating-point computation. -/
def scaleAbs14m30 (p : Nat) : Nat :=
  let d : Nat := if 150 ≤ 7 * p then 7 * p - 150 else 150 - 7 * p
  min 255 ((2 * d + 5) / 10)

/-- The HSV value channel of a `(B, G, R)` pixel: `V = max(B, G, R)`
(what `cv2.split(cv2.cvtColor(..., COLOR_BGR2HSV))` yields as `v`). -/
def vChannel (p : Nat × Nat × Nat) : Nat :=
  max p.1 (max p.2.1 p.2.2)

/-- The HSV saturation of a `(B, G, R)` pixel as an exact rational:
`(V - min)/V`, `0` for black. Used to state the spec's "boosts saturation"
clause. -/
def satQ (p : Nat × Nat × Nat) : ℚ :=
  let M := vChannel p
  let m := min p.1 (min p.2.1 p.2.2)
  if M = 0 then 0 else ((M : ℚ) - (m : ℚ)) / (M : ℚ)

/-- OpenCV's `saturate_cast<uchar>` on an integer intermediate. -/
def clampU8 (v : Int) : Nat :=
  if v ≤ 0 then 0 else min 255 v.toNat

/-- `cv2.filter2D(enhanced, -1, kernel)` with the fixed unsharp kernel
`[[0,-1,0],[-1,5,-1],[0,-1,0]]` (source line 53): per channel
`5*center - up - down - left - right`, `BORDER_REFLECT_101`, saturating
cast back to 8 bits. -/
def sharpen2D (img : Img) : Img where
  width := img.width
  height := img.height
  pix := fun x y =>
    let samp : Int → Int → ((Nat × Nat × Nat) → Nat) → Int := fun dx dy ch =>
      (ch (img.pix (reflect101 img.width ((x : Int) + dx))
                   (reflect101 img.height ((y : Int) + dy))) : Int)
    let out : ((Nat × Nat × Nat) → Nat) → Nat := fun ch =>
      clampU8 (5 * samp 0 0 ch - samp 0 (-1) ch - samp 0 1 ch
                 - samp (-1) 0 ch - samp 1 0 ch)
    (out (fun p => p.1), out (fun p => p.2.1), out (fun p => p.2.2))

/-- The state of `enhanced` after lines 39–50 of the source: 3×3 Gaussian
blur, per-channel contrast stretch `convertScaleAbs(alpha=1.4, beta=-30)`,
and the `enhanced[mask] = [255, 255, 255]` overwrite for pixels whose HSV
value channel in the blurred image exceeds 200. The mask assignment is
fused into the per-pixel definition. -/
def enhancedStage (image_cv : Img) : Img :=
  let blurred := gaussianBlur3 image_cv
  { width := blurred.width
    height := blurred.height
    pix := fun x y =>
      if 200 < vChannel (blurred.pix x y) then (255, 255, 255)
      else
        let p := blurred.pix x y
        (scaleAbs14m30 p.1, scaleAbs14m30 p.2.1, scaleAbs14m30 p.2.2) }

/-- `enhance_image_color(image_cv)` (source lines 35–55): blur, contrast
stretch and background whitening (`enhancedStage`), then the fixed unsharp
`filter2D`. -/
def enhance_image_color (image_cv : Img) : Img :=
  sharpen2D (enhancedStage image_cv)

/-- `deskew_image(image_cv)` (source lines 57–72), parametrized over the
external `deskew.determine_skew` estimator and the interpolation core of
`cv2.warpAffine` (neither is code of this repository). The call site fixes
the branch structure — return the input itself when the angle is `None` or
`|angle| < 0.5` — and the warped output size `(w, h)`. -/
def deskew_image (determine_skew : GImg → Option ℚ)
    (warpSample : Img → ℚ → Nat → Nat → Nat × Nat × Nat)
    (image_cv : Img) : Img :=
  let gray := bgr2gray image_cv
  match determine_skew gray with
  | none => image_cv
  | some angle =>
      if |angle| < 1 / 2 then image_cv
      else
        { width := image_cv.width
          height := image_cv.height
          pix := warpSample image_cv angle }

/-- `open_cv_image = np.array(pil_img)[:, :, ::-1]` (source lines 127–128)
and `cv2.cvtColor(..., COLOR_BGR2RGB)` (line 137): both reverse the channel
triple. -/
def reverseChannels (img : Img) : Img :=
  { img with pix := fun x y =>
      let p := img.pix x y
      (p.2.2, p.2.1, p.1) }

/-- `cv2.cvtColor(..., cv2.COLOR_GRAY2RGB)` (source line 142): replicate the
gray sample into three channels. -/
def gray2rgb (g : GImg) : Img :=
  ⟨g.width, g.height, fun x y => (g.pix x y, g.pix x y, g.pix x y)⟩

/-- The app's two processing modes (sidebar radio, source lines 85–88). -/
inductive Mode where
  | colorEnhance
  | handwriting
deriving DecidableEq

/-- A Streamlit slider's accepted range and default (min, max, default). -/
structure Slider where
  lo : Nat
  hi : Nat
  dflt : Nat

/-- `st.sidebar.slider("Eraser Threshold", 50, 180, 100)` (source line 97). -/
def eraserSlider : Slider := ⟨50, 180, 100⟩

/-- `st.sidebar.slider("Output Quality", 50, 100, 85)` (source line 101). -/
def qualitySlider : Slider := ⟨50, 100, 85⟩

/-- A slider accepts exactly the values between its bounds. -/
def Slider.accepts (s : Slider) (v : Nat) : Bool :=
  decide (s.lo ≤ v) && decide (v ≤ s.hi)

/-- The quality values a job can actually carry (source lines 90–101):
handwriting mode hard-codes `quality = 80`; colour mode exposes the
50–100 quality slider. -/
def acceptedQuality (mode : Mode) (q : Nat) : Bool :=
  match mode with
  | .handwriting => q == 80
  | .colorEnhance => qualitySlider.accepts q

/-- The JPEG quality a run uses (source lines 90–101): 80 in handwriting
mode regardless of any user-facing quality setting, the slider value in
colour-enhance mode. -/
def jobQuality (mode : Mode) (sliderQ : Nat) : Nat :=
  match mode with
  | .handwriting => 80
  | .colorEnhance => sliderQ

/-- One loop iteration of the processing loop (source lines 121–142):
RGB→BGR flip, deskew, then the selected per-page cleanup followed by the
conversion back to RGB for saving. -/
def processPage (determine_skew : GImg → Option ℚ)
    (warpSample : Img → ℚ → Nat → Nat → Nat × Nat × Nat)
    (mode : Mode) (remove_threshold : Nat) (pil_img : Img) : Img :=
  let open_cv_image := reverseChannels pil_img
  let deskewed := deskew_image determine_skew warpSample open_cv_image
  match mode with
  | .colorEnhance => reverseChannels (enhance_image_color deskewed)
  | .handwriting => gray2rgb (remove_handwriting_logic deskewed remove_threshold)

/-- `processed_images_bytes` at the end of the loop (source lines 118–148):
the JPEG payloads of the processed pages, in source page order.
`jpegEncode` stands for `PIL`'s JPEG encoder
(`img_pil_final.save(..., format='JPEG', quality=quality, optimize=True)`). -/
def processed_images_bytes (determine_skew : GImg → Option ℚ)
    (warpSample : Img → ℚ → Nat → Nat → Nat × Nat × Nat)
    (jpegEncode : Nat → Img → List Nat)
    (mode : Mode) (remove_threshold quality : Nat)
    (pil_images : List Img) : List (List Nat) :=
  pil_images.map fun pil_img =>
    jpegEncode quality (processPage determine_skew warpSample mode remove_threshold pil_img)

/-- The terminal outcome the `try/except` block (source lines 111–166)
delivers to the user: either the assembled PDF bytes behind the download
button, or the `st.error` message together with the boolean outcome of the
`"poppler" in str(e).lower()` check that decides the extra warning. -/
inductive RunResult where
  | success (pdfBytes : List Nat)
  | failure (message : String) (popplerHint : Bool)
deriving DecidableEq

/-- `"poppler" in str(e).lower()` (source line 165): case-insensitive
substring containment. -/
def containsPoppler (e : String) : Bool :=
  let hay := e.data.map Char.toLower
  let needle := "poppler".data
  (List.range (hay.length + 1)).any fun i => needle.isPrefixOf (hay.drop i)

/-- The whole `Start Processing` handler (source lines 111–166): on a decode
error the `except` branch reports `Error: {e}` plus the poppler hint and no
output is produced; otherwise every page is processed and encoded at the
job quality and `img2pdf.convert` packs the payload list.
`decoded` stands for the outcome of `convert_from_bytes(file_bytes, dpi=200)`
and `img2pdfConvert` for `img2pdf.convert`. -/
def runJob (determine_skew : GImg → Option ℚ)
    (warpSample : Img → ℚ → Nat → Nat → Nat × Nat × Nat)
    (jpegEncode : Nat → Img → List Nat)
    (img2pdfConvert : List (List Nat) → List Nat)
    (mode : Mode) (remove_threshold sliderQ : Nat)
    (decoded : Except String (List Img)) : RunResult :=
  match decoded with
  | .error e => .failure ("Error: " ++ e) (containsPoppler e)
  | .ok pil_images =>
      let quality := jobQuality mode sliderQ
      .success (img2pdfConvert
        (processed_images_bytes determine_skew warpSample jpegEncode
          mode remove_threshold quality pil_images))

/-- The non-message, structured content of a terminal failure: the only
datum the handler attaches beyond the message text is the poppler hint. -/
def failureHint : RunResult → Option Bool
  | .success _ => none
  | .failure _ hint => some hint

/-- A snapshot of what the run keeps in working memory: how many page
rasters returned by the rasterizer are live, and how many encoded page
payloads are held in `processed_images_bytes`. -/
structure MemState where
  liveRasters : Nat
  livePayloads : Nat
deriving DecidableEq

/-- Memory accounting of the run as written (source lines 116–148):
`convert_from_bytes` returns the full page list at once, so all `n` rasters
are live from that point on (`pil_images` stays in scope for the whole
loop), and `processed_images_bytes.append` accumulates every encoded
payload. State 0 is the instant after rasterization; state `i+1` is the end
of iteration `i`. -/
def memTrace (n : Nat) : List MemState :=
  ⟨n, 0⟩ :: (List.range n).map fun i => ⟨n, i + 1⟩

/-- The sequence of values sent to `progress_bar.progress` (source lines
122–123 and 153): `int((i / total_pages) * 90)` at the start of iteration
`i` — i.e. with `i` pages completed — and `100` after assembly. The source
computes the value in floating point; rounding a monotone real sequence
with the monotone `int(...)` truncation keeps the order properties, and the
exact model below uses `floor(90*i/n)`. -/
def progressTrace (n : Nat) : List Nat :=
  ((List.range n).map fun i => i * 90 / n) ++ [100]

/-! ## Helper lemmas -/

/-- In-range coordinates are fixed points of `BORDER_REFLECT_101` folding. -/
theorem reflect101_eq_self (n x : Nat) (h : x < n) : reflect101 n (x : Int) = x := by
  unfold reflect101
  by_cases h1 : n ≤ 1
  · have hx0 : x = 0 := by omega
    simp [h1, hx0]
  · rw [if_neg h1]
    dsimp only
    have hxm : (x : Int) < 2 * ((n : Int) - 1) := by omega
    have hq : (x : Int) % (2 * ((n : Int) - 1)) = (x : Int) :=
      Int.emod_eq_of_lt (by positivity) hxm
    rw [hq]
    have hneg : ¬ ((x : Int) < 0) := by omega
    rw [if_neg hneg, if_pos (show (x : Int) < (n : Int) by exact_mod_cast h)]
    simp

/-- The contrast stretch saturates into the 8-bit range. -/
theorem scaleAbs14m30_le (p : Nat) : scaleAbs14m30 p ≤ 255 := by
  unfold scaleAbs14m30
  exact Nat.min_le_left _ _

/-- `saturate_cast<uchar>` clamps anything at least 255 to exactly 255. -/
theorem clampU8_eq_255 (v : Int) (h : 255 ≤ v) : clampU8 v = 255 := by
  unfold clampU8
  rw [if_neg (by omega)]
  have h255 : 255 ≤ v.toNat := by omega
  exact Nat.min_eq_left h255

/-- Every pixel the masked contrast stage produces is within the 8-bit
range, in each channel. -/
theorem enhancedStage_pix_le (image_cv : Img) (x y : Nat) :
    ((enhancedStage image_cv).pix x y).1 ≤ 255 ∧
    ((enhancedStage image_cv).pix x y).2.1 ≤ 255 ∧
    ((enhancedStage image_cv).pix x y).2.2 ≤ 255 := by
  unfold enhancedStage
  dsimp only
  split
  · simp
  · exact ⟨scaleAbs14m30_le _, scaleAbs14m30_le _, scaleAbs14m30_le _⟩

/-- The unsharp filter keeps a pure-white pixel pure white, as long as the
image it runs over is 8-bit valid: `5*255` minus four samples that are each
at most 255 is at least 255, and the saturating cast clamps it back to 255. -/
theorem sharpen2D_pix_center_white (img : Img) (x y : Nat)
    (hx : x < img.width) (hy : y < img.height)
    (hc : img.pix x y = (255, 255, 255))
    (hb : ∀ a b, (img.pix a b).1 ≤ 255 ∧ (img.pix a b).2.1 ≤ 255 ∧
      (img.pix a b).2.2 ≤ 255) :
    (sharpen2D img).pix x y = (255, 255, 255) := by
  unfold sharpen2D
  dsimp only
  have hcx : reflect101 img.width ((x : Int) + 0) = x := by
    simpa using reflect101_eq_self img.width x hx
  have hcy : reflect101 img.height ((y : Int) + 0) = y := by
    simpa using reflect101_eq_self img.height y hy
  rw [hcx, hcy, hc]
  have b1 := hb x (reflect101 img.height ((y : Int) + -1))
  have b2 := hb x (reflect101 img.height ((y : Int) + 1))
  have b3 := hb (reflect101 img.width ((x : Int) + -1)) y
  have b4 := hb (reflect101 img.width ((x : Int) + 1)) y
  refine Prod.ext ?_ (Prod.ext ?_ ?_) <;> dsimp only <;>
    apply clampU8_eq_255 <;> omega

/-! ## Claims -/

/-- C1, counterexample: already for a two-page document the instant right
after `convert_from_bytes` returns has both page rasters live at once, so
the claimed "at most one page raster live at any instant" is false. -/
theorem memTrace_bounded_claim_false :
    MemState.mk 2 0 ∈ memTrace 2 ∧ ¬ ((MemState.mk 2 0).liveRasters ≤ 1) := by
  decide

/-- C1, amended: the run materializes all `n` page rasters simultaneously
(`convert_from_bytes` returns the whole list, which stays live for the whole
loop) and accumulates up to `n` encoded payloads; live memory grows with the
page count instead of being bounded by one page. -/
theorem memTrace_live_counts (n : Nat) (s : MemState) (h : s ∈ memTrace n) :
    s.liveRasters = n ∧ s.livePayloads ≤ n := by
  simp only [memTrace, List.mem_cons, List.mem_map, List.mem_range] at h
  rcases h with h | ⟨i, hi, rfl⟩
  · subst h; exact ⟨rfl, Nat.zero_le n⟩
  · exact ⟨rfl, show i + 1 ≤ n by omega⟩

/-- C1, witness: the amended theorem applied to the first memory state of a
three-page run. -/
theorem memTrace_live_counts_witness :
    (MemState.mk 3 0).liveRasters = 3 ∧ (MemState.mk 3 0).livePayloads ≤ 3 :=
  memTrace_live_counts 3 (MemState.mk 3 0) (by decide)

/-- C2, counterexample: on a uniform raster of luminance 100 with threshold
100 the smoothed pixel value equals the threshold, and
`cv2.threshold(..., THRESH_BINARY)`'s strict `src > thresh` comparison sends
it to pure black — the claim's "every pixel at or above the threshold
becomes pure white" fails at the threshold itself. -/
theorem remove_handwriting_at_threshold_black :
    (gaussianBlur5 (bgr2gray (constImg 3 3 (100, 100, 100)))).pix 1 1 = 100 ∧
    (remove_handwriting_logic (constImg 3 3 (100, 100, 100)) 100).pix 1 1 = 0 := by
  decide

/-- C2, amended: after grayscale conversion and smoothing, every pixel at or
below the caller-supplied threshold becomes pure black (0) and every pixel
strictly above it becomes pure white (255); in particular with threshold 100
a pixel of luminance 80 stays black and one of luminance 150 becomes white. -/
theorem remove_handwriting_thresholding (image_cv : Img) (t x y : Nat) :
    ((gaussianBlur5 (bgr2gray image_cv)).pix x y ≤ t →
      (remove_handwriting_logic image_cv t).pix x y = 0) ∧
    (t < (gaussianBlur5 (bgr2gray image_cv)).pix x y →
      (remove_handwriting_logic image_cv t).pix x y = 255) := by
  refine ⟨fun h => ?_, fun h => ?_⟩ <;>
    simp only [remove_handwriting_logic, thresholdBinary]
  · exact if_neg (by omega)
  · exact if_pos h

/-- C2, witness: the spec's own scenario, threshold 100 on luminance-80 and
luminance-150 rasters. -/
theorem remove_handwriting_thresholding_witness :
    (remove_handwriting_logic (constImg 3 3 (80, 80, 80)) 100).pix 1 1 = 0 ∧
    (remove_handwriting_logic (constImg 3 3 (150, 150, 150)) 100).pix 1 1 = 255 :=
  ⟨(remove_handwriting_thresholding (constImg 3 3 (80, 80, 80)) 100 1 1).1 (by decide),
   (remove_handwriting_thresholding (constImg 3 3 (150, 150, 150)) 100 1 1).2 (by decide)⟩

/-- C3: whenever the skew estimator returns `None` or an angle of absolute
value below 0.5 degrees, `deskew_image` returns its input itself —
pixel-identical, no rotation applied. -/
theorem deskew_image_negligible (determine_skew : GImg → Option ℚ)
    (warpSample : Img → ℚ → Nat → Nat → Nat × Nat × Nat) (image_cv : Img)
    (h : determine_skew (bgr2gray image_cv) = none ∨
      ∃ a, determine_skew (bgr2gray image_cv) = some a ∧ |a| < 1 / 2) :
    deskew_image determine_skew warpSample image_cv = image_cv := by
  unfold deskew_image
  dsimp only
  rcases h with h | ⟨a, ha, hlt⟩
  · rw [h]
  · rw [ha]
    exact if_pos hlt

/-- C3, witness: an estimator that reports `None` on a concrete raster. -/
theorem deskew_image_negligible_witness :
    deskew_image (fun _ => none) (fun _ _ _ _ => (0, 0, 0)) (constImg 2 2 (7, 7, 7)) =
      constImg 2 2 (7, 7, 7) :=
  deskew_image_negligible (fun _ => none) (fun _ _ _ _ => (0, 0, 0))
    (constImg 2 2 (7, 7, 7)) (Or.inl rfl)

/-- C4, counterexample: the enhancement does not boost saturation at every
pixel. On a uniform raster of colour `(99, 99, 100)` — not caught by the
`v > 200` background mask — the contrast stretch maps the pixel to
`(109, 109, 110)` and its HSV saturation drops from `1/100` to `1/110`. -/
theorem enhance_saturation_decreases :
    satQ ((enhance_image_color (constImg 3 3 (99, 99, 100))).pix 1 1) <
      satQ (99, 99, 100) ∧
    vChannel ((gaussianBlur3 (constImg 3 3 (99, 99, 100))).pix 1 1) ≤ 200 := by
  have h : (enhance_image_color (constImg 3 3 (99, 99, 100))).pix 1 1 = (109, 109, 110) := by
    decide
  refine ⟨?_, by decide⟩
  rw [h]
  norm_num [satQ, vChannel]

/-- C4, amended: the colour-preserving enhancement smooths, applies the
fixed linear contrast stretch `alpha = 1.4, beta = -30` (which does not
always increase saturation), forces every pixel whose blurred HSV value
channel exceeds 200 to pure white — a property that survives the final
unsharp sharpening because the saturating cast clamps at 255 — and keeps
the three colour channels and the raster dimensions. -/
theorem enhance_image_color_whitens (image_cv : Img) (x y : Nat)
    (hx : x < image_cv.width) (hy : y < image_cv.height)
    (hmask : 200 < vChannel ((gaussianBlur3 image_cv).pix x y)) :
    (enhance_image_color image_cv).pix x y = (255, 255, 255) ∧
    (enhance_image_color image_cv).width = image_cv.width ∧
    (enhance_image_color image_cv).height = image_cv.height := by
  refine ⟨?_, rfl, rfl⟩
  unfold enhance_image_color
  apply sharpen2D_pix_center_white
  · exact hx
  · exact hy
  · unfold enhancedStage
    dsimp only
    exact if_pos hmask
  · exact fun a b => enhancedStage_pix_le image_cv a b

/-- C4, witness: a uniform near-white raster (luminance 250) is forced to
pure white. -/
theorem enhance_image_color_whitens_witness :
    (enhance_image_color (constImg 3 3 (250, 250, 250))).pix 1 1 = (255, 255, 255) ∧
    (enhance_image_color (constImg 3 3 (250, 250, 250))).width = 3 ∧
    (enhance_image_color (constImg 3 3 (250, 250, 250))).height = 3 :=
  enhance_image_color_whitens (constImg 3 3 (250, 250, 250)) 1 1
    (by decide) (by decide) (by decide)

/-- C5, counterexample: the terminal failure carries no structured error
kind. Its only non-textual content is the boolean poppler hint, and a decode
failure ("bad input") and a storage-exhaustion failure ("resource limits")
produce the identical structured content `some false` — the two situations
are distinguishable only by reading the message text, not by kind. -/
theorem failure_kind_not_structured :
    failureHint (runJob (fun _ => none) (fun _ _ _ _ => (0, 0, 0)) (fun _ _ => [])
        (fun _ => []) .colorEnhance 100 85 (.error "cannot open file: not a PDF")) =
      some false ∧
    failureHint (runJob (fun _ => none) (fun _ _ _ _ => (0, 0, 0)) (fun _ _ => [])
        (fun _ => []) .colorEnhance 100 85 (.error "No space left on device")) =
      some false := by
  decide

/-- C5, amended: on any error the run aborts with a single terminal failure
and no partial-success output; the failure carries the exception's message
text prefixed with "Error: " plus a boolean poppler hint obtained by
case-insensitive substring match on the message — no structured error kind. -/
theorem runJob_error_handling (determine_skew : GImg → Option ℚ)
    (warpSample : Img → ℚ → Nat → Nat → Nat × Nat × Nat)
    (jpegEncode : Nat → Img → List Nat) (img2pdfConvert : List (List Nat) → List Nat)
    (mode : Mode) (t q : Nat) (e : String) :
    runJob determine_skew warpSample jpegEncode img2pdfConvert mode t q (.error e) =
      .failure ("Error: " ++ e) (containsPoppler e) ∧
    ∀ pdf, runJob determine_skew warpSample jpegEncode img2pdfConvert mode t q (.error e) ≠
      .success pdf :=
  ⟨rfl, fun _ h => RunResult.noConfusion h⟩

/-- C6, counterexample: a 2400-pixel-wide page goes through the whole
processing loop at width 2400 — there is no resizer and no configured
maximum page width, so the spec's `maxPageWidthPx = 1200` bound is violated. -/
theorem no_resizer_counterexample :
    (processPage (fun _ => none) (fun _ _ _ _ => (0, 0, 0)) .colorEnhance 100
        (constImg 2400 3000 (0, 0, 0))).width = 2400 ∧ ¬ (2400 ≤ 1200) :=
  ⟨rfl, by decide⟩

/-- C6, amended: the pipeline never resizes: every processed page raster has
exactly the source raster's dimensions (deskewing warps to the original
`(w, h)` and both enhancement modes are dimension-preserving), so a page
wider than any proposed maximum stays wider. -/
theorem processPage_preserves_dims (determine_skew : GImg → Option ℚ)
    (warpSample : Img → ℚ → Nat → Nat → Nat × Nat × Nat)
    (mode : Mode) (t : Nat) (pil_img : Img) :
    (processPage determine_skew warpSample mode t pil_img).width = pil_img.width ∧
    (processPage determine_skew warpSample mode t pil_img).height = pil_img.height := by
  have hd : (deskew_image determine_skew warpSample (reverseChannels pil_img)).width =
        pil_img.width ∧
      (deskew_image determine_skew warpSample (reverseChannels pil_img)).height =
        pil_img.height := by
    unfold deskew_image
    dsimp only
    cases determine_skew (bgr2gray (reverseChannels pil_img)) with
    | none => exact ⟨rfl, rfl⟩
    | some a =>
        dsimp only
        by_cases hlt : |a| < 1 / 2
        · rw [if_pos hlt]; exact ⟨rfl, rfl⟩
        · rw [if_neg hlt]; exact ⟨rfl, rfl⟩
  unfold processPage
  cases mode <;> exact ⟨hd.1, hd.2⟩

/-- C7: on a successful run the payload list has exactly one entry per
discovered page, payload `i` is the encoding of processed source page `i`
(in ascending order, no gaps, no duplicates, by construction of `List.map`),
and the assembler receives exactly this ordered list. -/
theorem processed_images_ordering (determine_skew : GImg → Option ℚ)
    (warpSample : Img → ℚ → Nat → Nat → Nat × Nat × Nat)
    (jpegEncode : Nat → Img → List Nat) (img2pdfConvert : List (List Nat) → List Nat)
    (mode : Mode) (t sliderQ : Nat) (pil_images : List Img) :
    (processed_images_bytes determine_skew warpSample jpegEncode mode t
        (jobQuality mode sliderQ) pil_images).length = pil_images.length ∧
    (∀ i, (processed_images_bytes determine_skew warpSample jpegEncode mode t
        (jobQuality mode sliderQ) pil_images).get? i =
      (pil_images.get? i).map fun pil_img =>
        jpegEncode (jobQuality mode sliderQ)
          (processPage determine_skew warpSample mode t pil_img)) ∧
    runJob determine_skew warpSample jpegEncode img2pdfConvert mode t sliderQ
        (.ok pil_images) =
      .success (img2pdfConvert (processed_images_bytes determine_skew warpSample jpegEncode
        mode t (jobQuality mode sliderQ) pil_images)) := by
  refine ⟨List.length_map _ _, fun i => ?_, rfl⟩
  simp [processed_images_bytes]

/-- C8: the sequence of values handed to `progress_bar.progress` — one entry
per page plus the final `progress(100)` — is monotonically nondecreasing,
and has one entry per page of the run plus the terminal one. -/
theorem progressTrace_monotone (n : Nat) :
    (progressTrace n).Pairwise (· ≤ ·) ∧ (progressTrace n).length = n + 1 := by
  constructor
  · unfold progressTrace
    apply List.pairwise_append.mpr
    refine ⟨?_, by simp, ?_⟩
    · exact (List.pairwise_lt_range n).map _
        (fun a b hab => Nat.div_le_div_right (by omega))
    · intro a ha b hb
      simp only [List.mem_map, List.mem_range] at ha
      simp only [List.mem_singleton] at hb
      obtain ⟨i, hi, rfl⟩ := ha
      subst hb
      have h0 : 0 < n := by omega
      have h91 : i * 90 / n < 91 := by
        rw [Nat.div_lt_iff_lt_mul h0]
        omega
      omega
  · simp [progressTrace]

/-- C9, counterexample: quality 1 is inside the claimed accepted range
1..100, but no job can carry it — the colour-mode slider floors at 50 and
handwriting mode pins quality to 80. -/
theorem quality_below_slider_rejected :
    acceptedQuality .colorEnhance 1 = false ∧
    acceptedQuality .handwriting 1 = false ∧ (1 : Nat) ≤ 100 := by
  decide

/-- C9, amended: the encoder runs at the job's quality value, and the
quality settings a job can accept are exactly 50..100 in colour-enhance mode
(the "Output Quality" slider bounds) and exactly 80 in handwriting mode. -/
theorem acceptedQuality_spec (q : Nat) :
    (acceptedQuality .colorEnhance q = true ↔ 50 ≤ q ∧ q ≤ 100) ∧
    (acceptedQuality .handwriting q = true ↔ q = 80) := by
  constructor
  · simp [acceptedQuality, Slider.accepts, qualitySlider]
  · simp [acceptedQuality]

/-- C10: handwriting mode always encodes at JPEG quality 80; two runs on the
same decoded document that differ only in the user-facing quality setting
produce identical results, because the quality slider only exists in
colour-enhance mode. -/
theorem handwriting_quality_fixed (determine_skew : GImg → Option ℚ)
    (warpSample : Img → ℚ → Nat → Nat → Nat × Nat × Nat)
    (jpegEncode : Nat → Img → List Nat) (img2pdfConvert : List (List Nat) → List Nat)
    (t q1 q2 : Nat) (decoded : Except String (List Img)) :
    jobQuality .handwriting q1 = 80 ∧
    runJob determine_skew warpSample jpegEncode img2pdfConvert .handwriting t q1 decoded =
      runJob determine_skew warpSample jpegEncode img2pdfConvert .handwriting t q2 decoded :=
  ⟨rfl, by cases decoded <;> rfl⟩

end PdfApp
